import Mathlib

/-!
Verification development for the ROI-heads stage of the Mask R-CNN model
(net/RegionOfInterest/RoIHeads.py): a shallow embedding of the data model,
of select_training_samples, detect and forward, and of the constructor.
Tensors are modelled as lists over ℚ with an explicit device tag where the
source manipulates tensor devices.  External collaborators (pooler,
predictor, matcher, sampler, box coder, nms, softmax, sigmoid, losses) are
carried as injected function fields or parameter bundles, as in the source,
and helpers from net/Utils that are not part of this file's source are
modelled from the specification and documented as such.
-/

set_option maxRecDepth 4000

namespace MaskRCNN

/-- Device tag of a tensor (a torch device).  Tensor constructors that are
called without an explicit device argument place their result on the
default device, which is cpu. -/
inductive Device where
  | cpu : Device
  | cuda : Nat → Device
deriving DecidableEq

/-- A box, as in the source: (x1, y1, x2, y2). -/
abbrev Box : Type := ℚ × ℚ × ℚ × ℚ

/-- An encoded box-regression 4-vector. -/
abbrev Delta : Type := ℚ × ℚ × ℚ × ℚ

def defBox : Box := (0, 0, 0, 0)

def defDelta : Delta := (0, 0, 0, 0)

/-- A feature map or pooled feature tensor (payload only, shape opaque). -/
abbrev Feat : Type := List (List ℚ)

/-- A single 2-d mask (mask logits or probabilities for one region). -/
abbrev Mask2 : Type := List (List ℚ)

def defMask2 : Mask2 := []

/-- Total list indexing with an explicit default, standing for tensor
element indexing. -/
def nth {α : Type} : List α → Nat → α → α
  | [], _, d => d
  | a :: _, 0, _ => a
  | _ :: t, n + 1, d => nth t n d

/-- Tensor gather: index a list by a list of indices (t[idx] in the
source). -/
def gather {α : Type} (l : List α) (idx : List Nat) (d : α) : List α :=
  idx.map (fun i => nth l i d)

/-- Boolean-mask selection of a tensor (t[keep] in the source, keep a
boolean mask). -/
def maskFilter {α : Type} (keep : List Bool) (l : List α) : List α :=
  (keep.zip l).filterMap (fun p => if p.1 then some p.2 else none)

/-- Modelled from the spec: the IoU of two boxes, the "overlap ratio
between two boxes" (glossary) — intersection area over union area.  Stands
for the overlap computation of net/Utils, which is not under src/. -/
def iou (a b : Box) : ℚ :=
  let interW := max 0 (min a.2.2.1 b.2.2.1 - max a.1 b.1)
  let interH := max 0 (min a.2.2.2 b.2.2.2 - max a.2.1 b.2.1)
  let inter := interW * interH
  let areaA := (a.2.2.1 - a.1) * (a.2.2.2 - a.2.1)
  let areaB := (b.2.2.1 - b.1) * (b.2.2.2 - b.2.1)
  inter / (areaA + areaB - inter)

/-- Modelled from the spec: box_iou (net/Utils, not under src/) computes
the "pairwise IoU between ground truth and the combined proposal set" —
the matrix with one row per box of the first list and one column per box
of the second list. -/
def box_iou (A B : List Box) : List (List ℚ) :=
  A.map (fun a => B.map (fun b => iou a b))

def clamp (v lo hi : ℚ) : ℚ := min (max v lo) hi

/-- Modelled from the spec: clipping of a box to the image bounds, where
image_shape is (height, width). -/
def clipBox (b : Box) (image_shape : ℚ × ℚ) : Box :=
  (clamp b.1 0 image_shape.2, clamp b.2.1 0 image_shape.1,
   clamp b.2.2.1 0 image_shape.2, clamp b.2.2.2 0 image_shape.1)

/-- Modelled from the spec: process_box (net/Utils, not under src/) —
"clip / filter decoded boxes against image bounds and a minimum-size
threshold (drop degenerate boxes)", filtering the paired scores
identically. -/
def process_box (box : List Box) (score : List ℚ) (image_shape : ℚ × ℚ)
    (min_size : ℚ) : List Box × List ℚ :=
  let clipped := box.map (fun b => clipBox b image_shape)
  let pairs := (clipped.zip score).filter
    (fun p => decide (min_size ≤ p.1.2.2.1 - p.1.1) &&
      decide (min_size ≤ p.1.2.2.2 - p.1.2.1))
  (pairs.map Prod.fst, pairs.map Prod.snd)

/-- Index of the first maximum of a rational list (0 for the empty list). -/
def argmax (l : List ℚ) : Nat :=
  (l.enum.foldl (fun acc p => if acc.2 < p.2 then p else acc) (0, l.headD 0)).1

/-- Modelled from the spec: Matcher (net/Utils, not under src/) — "given an
IoU matrix between ground-truth boxes and proposals, returns a
positive/negative/ignore label per proposal and the matched ground-truth
index".  Per column the best row is the match; the label is 1 (positive)
iff the best IoU reaches fg_iou_thresh, 0 (negative) iff it is below
bg_iou_thresh, and -1 (ignore) in between. -/
def Matcher (fg_iou_thresh bg_iou_thresh : ℚ) (iouM : List (List ℚ)) :
    List Int × List Nat :=
  let nP := (iouM.headD []).length
  let cols := (List.range nP).map (fun j => iouM.map (fun row => nth row j 0))
  let matched := cols.map argmax
  let labels := cols.map (fun c =>
    let best := nth c (argmax c) 0
    if fg_iou_thresh ≤ best then (1 : Int)
    else if best < bg_iou_thresh then 0 else -1)
  (labels, matched)

/-- Modelled from the spec: BalancedPositiveNegativeSampler (net/Utils, not
under src/) — "given per-proposal pos/neg labels, subsamples a fixed total
count at a target positive fraction".  The source draws at random; the
model is the deterministic variant that keeps the first indices of each
kind, positives capped at the positive fraction of the sample count and
negatives filling the remainder. -/
def BalancedPositiveNegativeSampler (num_samples : Nat)
    (positive_fraction : ℚ) (labels : List Int) : List Nat × List Nat :=
  let posAll := (labels.enum.filter (fun p => decide (p.2 = 1))).map Prod.fst
  let negAll := (labels.enum.filter (fun p => decide (p.2 = 0))).map Prod.fst
  let numPos := (Int.floor (positive_fraction * (num_samples : ℚ))).toNat
  let pos := posAll.take numPos
  let neg := negAll.take (num_samples - pos.length)
  (pos, neg)

/-- The encode/decode pair injected into RoIHeads (self.box_coder).  The
source's BoxCoder (net/Utils) is an external, already-specified primitive;
its elementwise transforms are carried as function fields. -/
structure BoxCoderT where
  encode : Box → Box → Delta
  decode : Delta → Box → Box

/-- Modelled from the spec: BoxCoder.encode (net/Utils, not under src/) — a
"normalized offset/scale delta relative to a reference box" for the centre
offset and the size ratio, weighted by reg_weights.  The spec fixes no
exact formula; rational ratios stand for the scale part. -/
def boxCoderEncode (w : ℚ × ℚ × ℚ × ℚ) (gt ref : Box) : Delta :=
  let rw := ref.2.2.1 - ref.1
  let rh := ref.2.2.2 - ref.2.1
  let rcx := ref.1 + rw / 2
  let rcy := ref.2.1 + rh / 2
  let gw := gt.2.2.1 - gt.1
  let gh := gt.2.2.2 - gt.2.1
  let gcx := gt.1 + gw / 2
  let gcy := gt.2.1 + gh / 2
  (w.1 * (gcx - rcx) / rw, w.2.1 * (gcy - rcy) / rh,
   w.2.2.1 * (gw / rw), w.2.2.2 * (gh / rh))

/-- Modelled from the spec: BoxCoder.decode (net/Utils, not under src/) —
the inverse transform of the encode above. -/
def boxCoderDecode (w : ℚ × ℚ × ℚ × ℚ) (d : Delta) (ref : Box) : Box :=
  let rw := ref.2.2.1 - ref.1
  let rh := ref.2.2.2 - ref.2.1
  let rcx := ref.1 + rw / 2
  let rcy := ref.2.1 + rh / 2
  let cx := rcx + d.1 * rw / w.1
  let cy := rcy + d.2.1 * rh / w.2.1
  let bw := d.2.2.1 * rw / w.2.2.1
  let bh := d.2.2.2 * rh / w.2.2.2
  (cx - bw / 2, cy - bh / 2, cx + bw / 2, cy + bh / 2)

/-- Per-image ground truth: target['boxes'], target['labels'],
target['masks']. -/
structure Target where
  boxes : List Box
  labels : List Nat
  masks : List Mask2

/-- External library primitives imported by the source module (softmax,
nms, sigmoid) and the loss functions from net/loss, carried as an explicit
bundle of function parameters. -/
structure Externals where
  softmaxF : List ℚ → List ℚ
  nmsF : List Box → List ℚ → ℚ → List Nat
  sigmoidF : ℚ → ℚ
  detection_lossF : List (List ℚ) → List (List ℚ) → List Nat → List Delta → ℚ × ℚ
  mask_lossF : List (List Mask2) → List Box → List Nat → List Nat → List Mask2 → ℚ

/-- The RoIHeads module state: exactly the attributes set in __init__
(lines 14-38 of the source). -/
structure RoIHeads where
  box_roi_pool : Feat → List Box → ℚ × ℚ → Feat
  box_predictor : Feat → List (List ℚ) × List (List ℚ)
  mask_roi_pool : Option (Feat → List Box → ℚ × ℚ → Feat)
  mask_predictor : Option (Feat → List (List Mask2))
  train_mode : Bool
  proposal_matcher : List (List ℚ) → List Int × List Nat
  fg_bg_sampler : List Int → List Nat × List Nat
  box_coder : BoxCoderT
  score_thresh : ℚ
  nms_thresh : ℚ
  num_detections : Nat
  min_size : ℚ

/-- RoIHeads.__init__ (lines 14-38): builds the matcher from the IoU
thresholds, the sampler from the sample count and positive fraction, and
the box coder from the regression weights; sets min_size to 1 and leaves
the mask collaborators unset (None). -/
def mkRoIHeads (box_roi_pool : Feat → List Box → ℚ × ℚ → Feat)
    (box_predictor : Feat → List (List ℚ) × List (List ℚ))
    (fg_iou_thresh bg_iou_thresh : ℚ) (num_samples : Nat)
    (positive_fraction : ℚ) (reg_weights : ℚ × ℚ × ℚ × ℚ)
    (score_thresh nms_thresh : ℚ) (num_detections : Nat)
    (train_mode : Bool) : RoIHeads where
  box_roi_pool := box_roi_pool
  box_predictor := box_predictor
  mask_roi_pool := none
  mask_predictor := none
  train_mode := train_mode
  proposal_matcher := Matcher fg_iou_thresh bg_iou_thresh
  fg_bg_sampler := BalancedPositiveNegativeSampler num_samples positive_fraction
  box_coder := ⟨boxCoderEncode reg_weights, boxCoderDecode reg_weights⟩
  score_thresh := score_thresh
  nms_thresh := nms_thresh
  num_detections := num_detections
  min_size := 1

/-- Result of select_training_samples: the sampled proposals, the matched
ground-truth indices, the labels, and the regression targets. -/
structure STSOut where
  proposal : List Box
  matched_idx : List Nat
  label : List Nat
  regression_target : List Delta
deriving DecidableEq

/-- The in-place suffix assignment label[n:] = 0 of the source, as a new
list. -/
def zeroSuffix (n : Nat) (l : List Nat) : List Nat :=
  l.take n ++ (l.drop n).map (fun _ => 0)

/-- The matcher invocation inside select_training_samples (line 46): labels
and matched ground-truth indices over the combined sequence
proposal ++ gt_box. -/
def RoIHeads.matcherOut (h : RoIHeads) (proposal : List Box)
    (target : Target) : List Int × List Nat :=
  h.proposal_matcher (box_iou target.boxes (proposal ++ target.boxes))

/-- The sampler invocation inside select_training_samples (line 47). -/
def RoIHeads.samplerOut (h : RoIHeads) (proposal : List Box)
    (target : Target) : List Nat × List Nat :=
  h.fg_bg_sampler (h.matcherOut proposal target).1

/-- RoIHeads.select_training_samples (lines 40-57): append ground truth to
the proposals, match, sample, encode regression targets for the positive
subset, slice proposals, matched indices and labels down to the sampled
indices, and force the labels after the positive count to background. -/
def RoIHeads.select_training_samples (h : RoIHeads) (proposal : List Box)
    (target : Target) : STSOut :=
  let gt_box := target.boxes
  let gt_label := target.labels
  let proposal2 := proposal ++ gt_box
  let matched_idx := (h.matcherOut proposal target).2
  let pos_idx := (h.samplerOut proposal target).1
  let neg_idx := (h.samplerOut proposal target).2
  let idx := pos_idx ++ neg_idx
  let regression_target := List.zipWith h.box_coder.encode
    (gather gt_box (gather matched_idx pos_idx 0) defBox)
    (gather proposal2 pos_idx defBox)
  let proposal3 := gather proposal2 idx defBox
  let matched_idx2 := gather matched_idx idx 0
  let label0 := gather gt_label matched_idx2 0
  let num_pos := pos_idx.length
  ⟨proposal3, matched_idx2, zeroSuffix num_pos label0, regression_target⟩

/-- The reshape(N, -1, 4) of line 64: regroup a flat row of box-regression
values into 4-vectors. -/
def toDeltas : List ℚ → List Delta
  | a :: b :: c :: d :: t => (a, b, c, d) :: toDeltas t
  | _ => []

/-- The per-class candidate stage of the detect loop (lines 70-76): take
the class score column and delta column, keep entries whose score reaches
score_thresh, decode the surviving deltas against the surviving proposals,
then clip and drop degenerate boxes with process_box. -/
def RoIHeads.classFilter (h : RoIHeads) (proposal : List Box)
    (image_shape : ℚ × ℚ) (score0 : List ℚ) (delta0 : List Delta) :
    List Box × List ℚ :=
  let keep := score0.map (fun v => decide (h.score_thresh ≤ v))
  let box := maskFilter keep proposal
  let score := maskFilter keep score0
  let box_delta := maskFilter keep delta0
  let box2 := List.zipWith (fun d b => h.box_coder.decode d b) box_delta box
  process_box box2 score image_shape h.min_size

/-- One iteration of the detect class loop (lines 69-84): the candidate
stage, then nms truncated to num_detections, the kept boxes and scores
gathered at the kept indices, and a label tensor filled with the class
index. -/
def RoIHeads.detectClass (h : RoIHeads) (E : Externals)
    (proposal : List Box) (image_shape : ℚ × ℚ) (c : Nat)
    (score0 : List ℚ) (delta0 : List Delta) :
    List Box × List ℚ × List Nat :=
  let bs := h.classFilter proposal image_shape score0 delta0
  let keep := (E.nmsF bs.1 bs.2 h.nms_thresh).take h.num_detections
  (gather bs.1 keep defBox, gather bs.2 keep 0, List.replicate keep.length c)

/-- Parallel per-detection boxes, labels and scores (the result dict of
detect), each tagged with the device they are created on. -/
structure DetectOut where
  boxes : Device × List Box
  labels : Device × List Nat
  scores : Device × List ℚ
deriving DecidableEq

/-- RoIHeads.detect (lines 59-87): softmax the logits, reshape the box
regression, run the per-class loop over the foreground classes
1..num_classes-1, and concatenate the per-class boxes, labels and scores.
The outputs are created on the device of class_logit (line 62 and the
device argument of torch.full on line 80). -/
def RoIHeads.detect (h : RoIHeads) (E : Externals)
    (class_logit : Device × List (List ℚ))
    (box_regression : List (List ℚ)) (proposal : List Box)
    (image_shape : ℚ × ℚ) : DetectOut :=
  let device := class_logit.1
  let num_classes := (class_logit.2.headD []).length
  let pred_score := class_logit.2.map E.softmaxF
  let deltas := box_regression.map toDeltas
  let per := (List.range' 1 (num_classes - 1)).map (fun c =>
    h.detectClass E proposal image_shape c
      (pred_score.map (fun row => nth row c 0))
      (deltas.map (fun row => nth row c defDelta)))
  ⟨(device, (per.map (fun t => t.1)).flatten),
   (device, (per.map (fun t => t.2.2)).flatten),
   (device, (per.map (fun t => t.2.1)).flatten)⟩

/-- A mask tensor together with its shape, so that the fixed spatial size
of the empty mask set torch.empty((0, 28, 28)) of line 118 is
representable. -/
structure MaskTensor where
  shape : Nat × Nat × Nat
  data : List Mask2
deriving DecidableEq

/-- torch.empty((0, 28, 28)) of line 118: an empty mask collection with
the fixed 28 x 28 spatial size, created without a device argument and
therefore on the default (cpu) device at the use site. -/
def emptyMaskTensor : MaskTensor := ⟨(0, 28, 28), []⟩

/-- Wrap computed per-detection masks with their shape. -/
def mkMaskTensor (d : List Mask2) : MaskTensor :=
  ⟨(d.length, (d.headD []).length, ((d.headD []).headD []).length), d⟩

/-- The result dict of forward: absent keys are none. -/
structure DetResult where
  boxes : Option (Device × List Box)
  labels : Option (Device × List Nat)
  scores : Option (Device × List ℚ)
  masks : Option (Device × MaskTensor)
deriving DecidableEq

/-- The losses dict of forward: absent keys are none; each present loss is
a scalar tagged with the device it is created on. -/
structure Losses where
  roi_classifier_loss : Option (Device × ℚ)
  roi_box_loss : Option (Device × ℚ)
  roi_mask_loss : Option (Device × ℚ)
deriving DecidableEq

/-- RoIHeads.forward (lines 89-136).  In training: sample selection, box
pooling and prediction, the detection losses, then the mask branch on the
positive prefix when both mask collaborators are configured, with the
zero-positive short circuit of lines 111-113 reporting torch.tensor(0) —
created without a device argument, hence on the default cpu device.  In
inference: box pooling and prediction, detect, then the mask branch on
the detected boxes when configured, with the zero-detection short circuit
of lines 117-119 reporting torch.empty((0, 28, 28)) — likewise on the
default cpu device — and otherwise the per-detection sigmoid mask
probabilities selected at each detection's predicted label. -/
def RoIHeads.forward (h : RoIHeads) (E : Externals) (feature : Device × Feat)
    (proposal : List Box) (image_shape : ℚ × ℚ) (target : Target) :
    DetResult × Losses :=
  let dev := feature.1
  if h.train_mode then
    let sts := h.select_training_samples proposal target
    let box_feature := h.box_roi_pool feature.2 sts.proposal image_shape
    let pred := h.box_predictor box_feature
    let dl := E.detection_lossF pred.1 pred.2 sts.label sts.regression_target
    let losses : Losses := ⟨some (dev, dl.1), some (dev, dl.2), none⟩
    match h.mask_roi_pool, h.mask_predictor with
    | some mask_roi_pool, some mask_predictor =>
      let num_pos := sts.regression_target.length
      let mask_proposal := sts.proposal.take num_pos
      let pos_matched_idx := sts.matched_idx.take num_pos
      let mask_label := sts.label.take num_pos
      if mask_proposal.length = 0 then
        (⟨none, none, none, none⟩,
          ⟨losses.roi_classifier_loss, losses.roi_box_loss,
            some (Device.cpu, 0)⟩)
      else
        let mask_feature := mask_roi_pool feature.2 mask_proposal image_shape
        let mask_logit := mask_predictor mask_feature
        let m_loss := E.mask_lossF mask_logit mask_proposal pos_matched_idx
          mask_label target.masks
        (⟨none, none, none, none⟩,
          ⟨losses.roi_classifier_loss, losses.roi_box_loss,
            some (dev, m_loss)⟩)
    | _, _ => (⟨none, none, none, none⟩, losses)
  else
    let box_feature := h.box_roi_pool feature.2 proposal image_shape
    let pred := h.box_predictor box_feature
    let det := h.detect E (dev, pred.1) pred.2 proposal image_shape
    let result : DetResult :=
      ⟨some det.boxes, some det.labels, some det.scores, none⟩
    match h.mask_roi_pool, h.mask_predictor with
    | some mask_roi_pool, some mask_predictor =>
      let mask_proposal := det.boxes.2
      if mask_proposal.length = 0 then
        (⟨result.boxes, result.labels, result.scores,
          some (Device.cpu, emptyMaskTensor)⟩, ⟨none, none, none⟩)
      else
        let mask_feature := mask_roi_pool feature.2 mask_proposal image_shape
        let mask_logit := mask_predictor mask_feature
        let label := det.labels.2
        let idxs := List.range label.length
        let sel := List.zipWith (fun i c => nth (nth mask_logit i []) c defMask2)
          idxs label
        let mask_prob := sel.map (fun m => m.map (fun row => row.map E.sigmoidF))
        (⟨result.boxes, result.labels, result.scores,
          some (dev, mkMaskTensor mask_prob)⟩, ⟨none, none, none⟩)
    | _, _ => (result, ⟨none, none, none⟩)

/-- A trivial bundle of external primitives, for concrete evaluations. -/
def trivialExternals : Externals :=
  ⟨fun r => r, fun b _ _ => List.range b.length, fun v => v,
   fun _ _ _ _ => (0, 0), fun _ _ _ _ _ => 0⟩

/-- An external bundle whose nms keeps every candidate, returning the
index range of its score input. -/
def rangeNmsExternals : Externals :=
  ⟨fun r => r, fun _ s _ => List.range s.length, fun v => v,
   fun _ _ _ _ => (0, 0), fun _ _ _ _ _ => 0⟩

/-- An empty ground-truth target, for concrete evaluations. -/
def emptyTarget : Target := ⟨[], [], []⟩

/-- A concrete inference-mode instance built through the constructor. -/
def wInferH : RoIHeads :=
  mkRoIHeads (fun _ _ _ => []) (fun _ => ([], [])) (1/2) (1/4) 4 (1/2)
    (1, 1, 1, 1) (1/2) (1/2) 10 false

/-- A concrete training-mode instance whose injected matcher marks the
first and third combined proposals positive (both matched to ground-truth
box 0) and the second negative, and whose injected sampler draws the two
positives then the one negative. -/
def wTrainH2 : RoIHeads :=
  ⟨fun _ _ _ => [], fun _ => ([], []), none, none, true,
   fun _ => ([1, 0, 1], [0, 0, 0]), fun _ => ([0, 2], [1]),
   ⟨fun _ _ => defDelta, fun _ _ => defBox⟩, 1, 1, 10, 1⟩

/-- A concrete inference-mode instance with an identity box decoder and
integral thresholds. -/
def wInferH2 : RoIHeads :=
  ⟨fun _ _ _ => [], fun _ => ([], []), none, none, false,
   fun _ => ([], []), fun _ => ([], []),
   ⟨fun _ _ => defDelta, fun _ b => b⟩, 1, 1, 10, 1⟩

/-- Concrete proposals: one box matching the ground truth exactly and one
small low-overlap box. -/
def wProposal : List Box := [(0, 0, 10, 10), (0, 0, 2, 2)]

/-- Concrete ground truth: one box of class 2. -/
def wTarget : Target := ⟨[(0, 0, 10, 10)], [2], []⟩

/-- A training-mode instance with the mask collaborators assigned and an
empty sampler, exercising the zero-positive mask short circuit. -/
def wMaskTrainH : RoIHeads :=
  ⟨fun _ _ _ => [], fun _ => ([], []), some (fun _ _ _ => []),
   some (fun _ => []), true, fun _ => ([], []), fun _ => ([], []),
   ⟨fun _ _ => defDelta, fun _ _ => defBox⟩, 1/2, 1/2, 10, 1⟩

/-- An inference-mode instance with the mask collaborators assigned and a
predictor yielding no logits, exercising the zero-detection mask short
circuit. -/
def wMaskInferH : RoIHeads :=
  ⟨fun _ _ _ => [], fun _ => ([], []), some (fun _ _ _ => []),
   some (fun _ => []), false, fun _ => ([], []), fun _ => ([], []),
   ⟨fun _ _ => defDelta, fun _ _ => defBox⟩, 1/2, 1/2, 10, 1⟩

theorem gather_length {α : Type} (l : List α) (idx : List Nat) (d : α) :
    (gather l idx d).length = idx.length := by
  simp [gather]

theorem nth_gather {α : Type} (l : List α) (idx : List Nat) (d : α)
    (k : Nat) (hk : k < idx.length) :
    nth (gather l idx d) k d = nth l (nth idx k 0) d := by
  induction idx generalizing k with
  | nil => simp at hk
  | cons i t ih =>
    cases k with
    | zero => simp [gather, nth]
    | succ m =>
      have hm : m < t.length := by simpa using Nat.lt_of_succ_lt_succ hk
      simpa [gather, nth] using ih m hm

theorem nth_append_lt {α : Type} (a b : List α) (k : Nat) (d : α)
    (hk : k < a.length) : nth (a ++ b) k d = nth a k d := by
  induction a generalizing k with
  | nil => simp at hk
  | cons x t ih =>
    cases k with
    | zero => rfl
    | succ m =>
      have hm : m < t.length := by simpa using Nat.lt_of_succ_lt_succ hk
      simpa [nth] using ih m hm

theorem nth_append_right {α : Type} (a b : List α) (j : Nat) (d : α) :
    nth (a ++ b) (a.length + j) d = nth b j d := by
  induction a with
  | nil => simp
  | cons x t ih =>
    have harith : (x :: t).length + j = (t.length + j) + 1 := by
      simp; omega
    rw [harith]
    simpa [nth] using ih

theorem nth_zipWith {α β γ : Type} (f : α → β → γ) (a : List α)
    (b : List β) (k : Nat) (da : α) (db : β) (dc : γ)
    (h1 : k < a.length) (h2 : k < b.length) :
    nth (List.zipWith f a b) k dc = f (nth a k da) (nth b k db) := by
  induction a generalizing b k with
  | nil => simp at h1
  | cons x t ih =>
    cases b with
    | nil => simp at h2
    | cons y s =>
      cases k with
      | zero => simp [nth]
      | succ m =>
        have hm1 : m < t.length := by simpa using Nat.lt_of_succ_lt_succ h1
        have hm2 : m < s.length := by simpa using Nat.lt_of_succ_lt_succ h2
        simpa [nth] using ih s m hm1 hm2

theorem nth_mem {α : Type} (l : List α) (k : Nat) (d : α)
    (hk : k < l.length) : nth l k d ∈ l := by
  induction l generalizing k with
  | nil => simp at hk
  | cons x t ih =>
    cases k with
    | zero => simp [nth]
    | succ m =>
      have hm : m < t.length := by simpa using Nat.lt_of_succ_lt_succ hk
      exact List.mem_cons_of_mem x (ih m hm)

theorem zeroSuffix_length (n : Nat) (l : List Nat) :
    (zeroSuffix n l).length = l.length := by
  simp [zeroSuffix]
  omega

theorem nth_map_zero (l : List Nat) (k : Nat) :
    nth (l.map (fun _ => (0 : Nat))) k 0 = 0 := by
  induction l generalizing k with
  | nil => simp [nth]
  | cons x t ih =>
    cases k with
    | zero => simp [nth]
    | succ m => simpa [nth] using ih m

theorem zeroSuffix_cons_succ (n : Nat) (x : Nat) (t : List Nat) :
    zeroSuffix (n + 1) (x :: t) = x :: zeroSuffix n t := by
  simp [zeroSuffix]

theorem nth_zeroSuffix_lt (n k : Nat) (l : List Nat) (hk : k < n) :
    nth (zeroSuffix n l) k 0 = nth l k 0 := by
  induction l generalizing n k with
  | nil => simp [zeroSuffix, nth]
  | cons x t ih =>
    cases n with
    | zero => simp at hk
    | succ m =>
      rw [zeroSuffix_cons_succ]
      cases k with
      | zero => rfl
      | succ j =>
        have hj : j < m := Nat.lt_of_succ_lt_succ hk
        simpa [nth] using ih m j hj

theorem nth_zeroSuffix_ge (n k : Nat) (l : List Nat) (hk : n ≤ k) :
    nth (zeroSuffix n l) k 0 = 0 := by
  induction l generalizing n k with
  | nil => simp [zeroSuffix, nth]
  | cons x t ih =>
    cases n with
    | zero =>
      simpa [zeroSuffix] using nth_map_zero (x :: t) k
    | succ m =>
      rw [zeroSuffix_cons_succ]
      cases k with
      | zero => simp at hk
      | succ j =>
        have hj : m ≤ j := Nat.le_of_succ_le_succ hk
        simpa [nth] using ih m j hj

theorem maskFilter_map_self {α : Type} (p : α → Bool) (l : List α) (x : α)
    (hx : x ∈ maskFilter (l.map p) l) : p x = true := by
  induction l with
  | nil => simp [maskFilter] at hx
  | cons a t ih =>
    by_cases hpa : p a = true
    · rw [show maskFilter ((a :: t).map p) (a :: t) =
        a :: maskFilter (t.map p) t by simp [maskFilter, hpa]] at hx
      rcases List.mem_cons.mp hx with hxa | hxt
      · rw [hxa]; exact hpa
      · exact ih hxt
    · rw [show maskFilter ((a :: t).map p) (a :: t) =
        maskFilter (t.map p) t by
          simp [maskFilter, Bool.eq_false_iff.mpr hpa]] at hx
      exact ih hx

theorem mem_zip_right {α β : Type} (a : List α) (b : List β) (p : α × β)
    (hp : p ∈ a.zip b) : p.2 ∈ b := by
  induction a generalizing b with
  | nil => simp [List.zip] at hp
  | cons x t ih =>
    cases b with
    | nil => simp [List.zip] at hp
    | cons y s =>
      rcases List.mem_cons.mp hp with h1 | h2
      · rw [h1]; exact List.mem_cons_self y s
      · exact List.mem_cons_of_mem y (ih s h2)

theorem process_box_score_mem (box : List Box) (score : List ℚ)
    (image_shape : ℚ × ℚ) (min_size : ℚ) (s : ℚ)
    (hs : s ∈ (process_box box score image_shape min_size).2) : s ∈ score := by
  simp only [process_box] at hs
  rcases List.mem_map.mp hs with ⟨p, hp, hps⟩
  have hz := mem_zip_right _ _ p (List.mem_of_mem_filter hp)
  rw [← hps]
  exact hz

theorem classFilter_score_ge (h : RoIHeads) (proposal : List Box)
    (image_shape : ℚ × ℚ) (score0 : List ℚ) (delta0 : List Delta) (s : ℚ)
    (hs : s ∈ (h.classFilter proposal image_shape score0 delta0).2) :
    h.score_thresh ≤ s := by
  have h1 : s ∈ maskFilter
      (score0.map (fun v => decide (h.score_thresh ≤ v))) score0 := by
    have := process_box_score_mem _ _ image_shape h.min_size s
      (by simpa [RoIHeads.classFilter] using hs)
    exact this
  have h2 := maskFilter_map_self (fun v => decide (h.score_thresh ≤ v))
    score0 s h1
  exact of_decide_eq_true h2

theorem classFilter_lengths (h : RoIHeads) (proposal : List Box)
    (image_shape : ℚ × ℚ) (score0 : List ℚ) (delta0 : List Delta) :
    (h.classFilter proposal image_shape score0 delta0).1.length =
      (h.classFilter proposal image_shape score0 delta0).2.length := by
  simp [RoIHeads.classFilter, process_box]

/-- C5: every score in the result of detect is at least the configured
score threshold, provided the external nms primitive returns indices into
its input (its interface contract). -/
theorem detect_scores_ge_thresh (h : RoIHeads) (E : Externals)
    (class_logit : Device × List (List ℚ)) (box_regression : List (List ℚ))
    (proposal : List Box) (image_shape : ℚ × ℚ)
    (hnms : ∀ b s, ∀ i ∈ E.nmsF b s h.nms_thresh, i < s.length) :
    ∀ s ∈ (h.detect E class_logit box_regression proposal
      image_shape).scores.2, h.score_thresh ≤ s := by
  intro s hs
  simp only [RoIHeads.detect] at hs
  rcases List.mem_flatten.mp hs with ⟨part, hpart, hspart⟩
  rcases List.mem_map.mp hpart with ⟨t, ht, htp⟩
  rcases List.mem_map.mp ht with ⟨c, _, hct⟩
  rw [← htp, ← hct] at hspart
  simp only [RoIHeads.detectClass] at hspart
  rcases List.mem_map.mp hspart with ⟨i, hi, his⟩
  have himem : i ∈ E.nmsF
      (h.classFilter proposal image_shape
        (class_logit.2.map E.softmaxF |>.map (fun row => nth row c 0))
        (box_regression.map toDeltas |>.map (fun row => nth row c defDelta))).1
      (h.classFilter proposal image_shape
        (class_logit.2.map E.softmaxF |>.map (fun row => nth row c 0))
        (box_regression.map toDeltas |>.map (fun row => nth row c defDelta))).2
      h.nms_thresh := List.take_subset _ _ hi
  have hilt := hnms _ _ i himem
  have hsmem : s ∈ (h.classFilter proposal image_shape
      (class_logit.2.map E.softmaxF |>.map (fun row => nth row c 0))
      (box_regression.map toDeltas |>.map (fun row => nth row c defDelta))).2 := by
    rw [← his]
    exact nth_mem _ i 0 hilt
  exact classFilter_score_ge h proposal image_shape _ _ s hsmem

/-- C6: for each foreground class, assuming the external nms primitive
satisfies the standard greedy-suppression contract on this invocation (no
two boxes it keeps have pairwise IoU at or above nms_thresh), the boxes
kept by the detect class loop also pairwise satisfy IoU < nms_thresh, and
at most num_detections of them are kept. -/
theorem detect_class_nms_invariant (h : RoIHeads) (E : Externals)
    (proposal : List Box) (image_shape : ℚ × ℚ) (c : Nat)
    (score0 : List ℚ) (delta0 : List Delta)
    (hc : List.Pairwise (fun a b => iou a b < h.nms_thresh)
      (gather (h.classFilter proposal image_shape score0 delta0).1
        (E.nmsF (h.classFilter proposal image_shape score0 delta0).1
          (h.classFilter proposal image_shape score0 delta0).2
          h.nms_thresh) defBox)) :
    List.Pairwise (fun a b => iou a b < h.nms_thresh)
      (h.detectClass E proposal image_shape c score0 delta0).1 ∧
    (h.detectClass E proposal image_shape c score0 delta0).1.length ≤
      h.num_detections := by
  constructor
  · have heq : (h.detectClass E proposal image_shape c score0 delta0).1 =
        (gather (h.classFilter proposal image_shape score0 delta0).1
          (E.nmsF (h.classFilter proposal image_shape score0 delta0).1
            (h.classFilter proposal image_shape score0 delta0).2
            h.nms_thresh) defBox).take h.num_detections := by
      simp [RoIHeads.detectClass, gather, List.map_take]
    rw [heq]
    exact hc.sublist (List.take_sublist _ _)
  · have hlen : (h.detectClass E proposal image_shape c score0 delta0).1.length =
        ((E.nmsF (h.classFilter proposal image_shape score0 delta0).1
          (h.classFilter proposal image_shape score0 delta0).2
          h.nms_thresh).take h.num_detections).length := by
      simp [RoIHeads.detectClass, gather_length]
    rw [hlen, List.length_take]
    exact Nat.min_le_left _ _

/-- C1: the index bookkeeping of select_training_samples is consistent with
the post-concatenation proposal sequence proposal ++ gt (positions
[0, len(proposal)) are the original proposals and positions
[len(proposal), total) are the appended ground-truth boxes, as the third
and fourth conjuncts record).  At every sampled position k, the returned
proposal is the combined-sequence element at the sampler's k-th index, the
returned matched index is the matcher's ground-truth assignment for that
same combined element, and for positive positions the regression target is
encoded from the ground-truth box at that matched index against that same
combined proposal while the label is gathered from the ground-truth labels
at that matched index. -/
theorem select_training_samples_index_consistency
    (h : RoIHeads) (proposal : List Box) (target : Target) (k : Nat)
    (hk : k < ((h.samplerOut proposal target).1 ++
      (h.samplerOut proposal target).2).length) :
    nth (h.select_training_samples proposal target).proposal k defBox =
      nth (proposal ++ target.boxes)
        (nth ((h.samplerOut proposal target).1 ++
          (h.samplerOut proposal target).2) k 0) defBox ∧
    nth (h.select_training_samples proposal target).matched_idx k 0 =
      nth (h.matcherOut proposal target).2
        (nth ((h.samplerOut proposal target).1 ++
          (h.samplerOut proposal target).2) k 0) 0 ∧
    (∀ j, j < proposal.length →
      nth (proposal ++ target.boxes) j defBox = nth proposal j defBox) ∧
    (∀ j, nth (proposal ++ target.boxes) (proposal.length + j) defBox =
      nth target.boxes j defBox) ∧
    (k < (h.samplerOut proposal target).1.length →
      nth (h.select_training_samples proposal target).regression_target k
          defDelta =
        h.box_coder.encode
          (nth target.boxes
            (nth (h.select_training_samples proposal target).matched_idx k 0)
            defBox)
          (nth (proposal ++ target.boxes)
            (nth ((h.samplerOut proposal target).1 ++
              (h.samplerOut proposal target).2) k 0) defBox) ∧
      nth (h.select_training_samples proposal target).label k 0 =
        nth target.labels
          (nth (h.select_training_samples proposal target).matched_idx k 0)
          0) := by
  refine ⟨?_, ?_, ?_, ?_, ?_⟩
  · simpa [RoIHeads.select_training_samples] using
      nth_gather (proposal ++ target.boxes)
        ((h.samplerOut proposal target).1 ++ (h.samplerOut proposal target).2)
        defBox k hk
  · simpa [RoIHeads.select_training_samples] using
      nth_gather (h.matcherOut proposal target).2
        ((h.samplerOut proposal target).1 ++ (h.samplerOut proposal target).2)
        0 k hk
  · exact fun j hj => nth_append_lt proposal target.boxes j defBox hj
  · exact fun j => nth_append_right proposal target.boxes j defBox
  · intro hpos
    have hidx : nth ((h.samplerOut proposal target).1 ++
        (h.samplerOut proposal target).2) k 0 =
        nth (h.samplerOut proposal target).1 k 0 :=
      nth_append_lt _ _ k 0 hpos
    have hmatched : nth (h.select_training_samples proposal target).matched_idx
        k 0 =
        nth (h.matcherOut proposal target).2
          (nth (h.samplerOut proposal target).1 k 0) 0 := by
      have := nth_gather (h.matcherOut proposal target).2
        ((h.samplerOut proposal target).1 ++ (h.samplerOut proposal target).2)
        0 k hk
      simpa [RoIHeads.select_training_samples, hidx] using this
    constructor
    · have hA : k < (gather target.boxes
          (gather (h.matcherOut proposal target).2
            (h.samplerOut proposal target).1 0) defBox).length := by
        simpa [gather_length] using hpos
      have hB : k < (gather (proposal ++ target.boxes)
          (h.samplerOut proposal target).1 defBox).length := by
        simpa [gather_length] using hpos
      have hz := nth_zipWith h.box_coder.encode
        (gather target.boxes
          (gather (h.matcherOut proposal target).2
            (h.samplerOut proposal target).1 0) defBox)
        (gather (proposal ++ target.boxes)
          (h.samplerOut proposal target).1 defBox)
        k defBox defBox defDelta hA hB
      have hAval : nth (gather target.boxes
          (gather (h.matcherOut proposal target).2
            (h.samplerOut proposal target).1 0) defBox) k defBox =
          nth target.boxes
            (nth (h.matcherOut proposal target).2
              (nth (h.samplerOut proposal target).1 k 0) 0) defBox := by
        have h1 := nth_gather target.boxes
          (gather (h.matcherOut proposal target).2
            (h.samplerOut proposal target).1 0) defBox k
          (by simpa [gather_length] using hpos)
        have h2 := nth_gather (h.matcherOut proposal target).2
          (h.samplerOut proposal target).1 0 k hpos
        rw [h1, h2]
      have hBval : nth (gather (proposal ++ target.boxes)
          (h.samplerOut proposal target).1 defBox) k defBox =
          nth (proposal ++ target.boxes)
            (nth (h.samplerOut proposal target).1 k 0) defBox :=
        nth_gather (proposal ++ target.boxes)
          (h.samplerOut proposal target).1 defBox k hpos
      rw [show (h.select_training_samples proposal target).regression_target =
        List.zipWith h.box_coder.encode
          (gather target.boxes
            (gather (h.matcherOut proposal target).2
              (h.samplerOut proposal target).1 0) defBox)
          (gather (proposal ++ target.boxes)
            (h.samplerOut proposal target).1 defBox) from rfl]
      rw [hz, hAval, hBval, hmatched, hidx]
    · have hklen : k < ((h.samplerOut proposal target).1 ++
          (h.samplerOut proposal target).2).length := hk
      have hlbl : nth (gather target.labels
          (gather (h.matcherOut proposal target).2
            ((h.samplerOut proposal target).1 ++
              (h.samplerOut proposal target).2) 0) 0) k 0 =
          nth target.labels
            (nth (gather (h.matcherOut proposal target).2
              ((h.samplerOut proposal target).1 ++
                (h.samplerOut proposal target).2) 0) k 0) 0 :=
        nth_gather target.labels _ 0 k (by simpa [gather_length] using hklen)
      rw [show (h.select_training_samples proposal target).label =
        zeroSuffix (h.samplerOut proposal target).1.length
          (gather target.labels
            (gather (h.matcherOut proposal target).2
              ((h.samplerOut proposal target).1 ++
                (h.samplerOut proposal target).2) 0) 0) from rfl]
      rw [nth_zeroSuffix_lt _ _ _ hpos, hlbl]
      rfl

/-- C2: on a training invocation with non-empty ground truth, the
regression-target count of select_training_samples equals the positive
sample count, and the returned labels, sampled proposals and matched-index
sequences all have the total sampled length (positive count plus negative
count). -/
theorem select_training_samples_lengths
    (h : RoIHeads) (proposal : List Box) (target : Target)
    (hgt : target.boxes ≠ []) :
    (h.select_training_samples proposal target).regression_target.length =
      (h.samplerOut proposal target).1.length ∧
    (h.select_training_samples proposal target).label.length =
      (h.samplerOut proposal target).1.length +
        (h.samplerOut proposal target).2.length ∧
    (h.select_training_samples proposal target).proposal.length =
      (h.samplerOut proposal target).1.length +
        (h.samplerOut proposal target).2.length ∧
    (h.select_training_samples proposal target).matched_idx.length =
      (h.samplerOut proposal target).1.length +
        (h.samplerOut proposal target).2.length := by
  refine ⟨?_, ?_, ?_, ?_⟩
  · simp [RoIHeads.select_training_samples, gather_length]
  · simp [RoIHeads.select_training_samples, zeroSuffix_length, gather_length]
  · simp [RoIHeads.select_training_samples, gather_length]
  · simp [RoIHeads.select_training_samples, gather_length]

/-- C3: in the output of select_training_samples the positive samples
occupy the contiguous position range [0, positive count): each such
position holds the combined-sequence proposal drawn by a positive sampler
index; and every label at a position at or after the positive count is
forced to the background class 0, whatever matched ground-truth index the
matcher assigned there. -/
theorem select_training_samples_pos_and_bg
    (h : RoIHeads) (proposal : List Box) (target : Target) :
    (∀ k, k < (h.samplerOut proposal target).1.length →
      nth (h.select_training_samples proposal target).proposal k defBox =
        nth (proposal ++ target.boxes)
          (nth (h.samplerOut proposal target).1 k 0) defBox) ∧
    (∀ k, (h.samplerOut proposal target).1.length ≤ k →
      nth (h.select_training_samples proposal target).label k 0 = 0) := by
  constructor
  · intro k hkpos
    have hk : k < ((h.samplerOut proposal target).1 ++
        (h.samplerOut proposal target).2).length := by
      simp only [List.length_append]
      omega
    have hg := nth_gather (proposal ++ target.boxes)
      ((h.samplerOut proposal target).1 ++ (h.samplerOut proposal target).2)
      defBox k hk
    have hidx : nth ((h.samplerOut proposal target).1 ++
        (h.samplerOut proposal target).2) k 0 =
        nth (h.samplerOut proposal target).1 k 0 :=
      nth_append_lt _ _ k 0 hkpos
    rw [show (h.select_training_samples proposal target).proposal =
      gather (proposal ++ target.boxes)
        ((h.samplerOut proposal target).1 ++
          (h.samplerOut proposal target).2) defBox from rfl]
    rw [hg, hidx]
  · intro k hkge
    rw [show (h.select_training_samples proposal target).label =
      zeroSuffix (h.samplerOut proposal target).1.length
        (gather target.labels
          (gather (h.matcherOut proposal target).2
            ((h.samplerOut proposal target).1 ++
              (h.samplerOut proposal target).2) 0) 0) from rfl]
    exact nth_zeroSuffix_ge _ _ _ hkge

theorem forward_train_no_pos_eq (h : RoIHeads) (E : Externals)
    (feature : Device × Feat) (proposal : List Box) (image_shape : ℚ × ℚ)
    (target : Target) (mrp : Feat → List Box → ℚ × ℚ → Feat)
    (mp : Feat → List (List Mask2))
    (ht : h.train_mode = true) (h1 : h.mask_roi_pool = some mrp)
    (h2 : h.mask_predictor = some mp)
    (hz : (h.select_training_samples proposal
      target).regression_target.length = 0) :
    h.forward E feature proposal image_shape target =
      (⟨none, none, none, none⟩,
        ⟨some (feature.1,
            (E.detection_lossF
              (h.box_predictor (h.box_roi_pool feature.2
                (h.select_training_samples proposal target).proposal
                image_shape)).1
              (h.box_predictor (h.box_roi_pool feature.2
                (h.select_training_samples proposal target).proposal
                image_shape)).2
              (h.select_training_samples proposal target).label
              (h.select_training_samples proposal target).regression_target).1),
          some (feature.1,
            (E.detection_lossF
              (h.box_predictor (h.box_roi_pool feature.2
                (h.select_training_samples proposal target).proposal
                image_shape)).1
              (h.box_predictor (h.box_roi_pool feature.2
                (h.select_training_samples proposal target).proposal
                image_shape)).2
              (h.select_training_samples proposal target).label
              (h.select_training_samples proposal target).regression_target).2),
          some (Device.cpu, 0)⟩) := by
  simp [RoIHeads.forward, ht, h1, h2, hz]

theorem forward_infer_no_det_eq (h : RoIHeads) (E : Externals)
    (feature : Device × Feat) (proposal : List Box) (image_shape : ℚ × ℚ)
    (target : Target) (mrp : Feat → List Box → ℚ × ℚ → Feat)
    (mp : Feat → List (List Mask2))
    (ht : h.train_mode = false) (h1 : h.mask_roi_pool = some mrp)
    (h2 : h.mask_predictor = some mp)
    (hz : (h.detect E
      (feature.1,
        (h.box_predictor (h.box_roi_pool feature.2 proposal image_shape)).1)
      (h.box_predictor (h.box_roi_pool feature.2 proposal image_shape)).2
      proposal image_shape).boxes.2.length = 0) :
    h.forward E feature proposal image_shape target =
      (⟨some (h.detect E
          (feature.1,
            (h.box_predictor (h.box_roi_pool feature.2 proposal
              image_shape)).1)
          (h.box_predictor (h.box_roi_pool feature.2 proposal image_shape)).2
          proposal image_shape).boxes,
        some (h.detect E
          (feature.1,
            (h.box_predictor (h.box_roi_pool feature.2 proposal
              image_shape)).1)
          (h.box_predictor (h.box_roi_pool feature.2 proposal image_shape)).2
          proposal image_shape).labels,
        some (h.detect E
          (feature.1,
            (h.box_predictor (h.box_roi_pool feature.2 proposal
              image_shape)).1)
          (h.box_predictor (h.box_roi_pool feature.2 proposal image_shape)).2
          proposal image_shape).scores,
        some (Device.cpu, emptyMaskTensor)⟩,
       ⟨none, none, none⟩) := by
  have hz2 : (h.detect E
      (feature.1,
        (h.box_predictor (h.box_roi_pool feature.2 proposal image_shape)).1)
      (h.box_predictor (h.box_roi_pool feature.2 proposal image_shape)).2
      proposal image_shape).boxes.2 = [] := List.length_eq_zero.mp hz
  simp [RoIHeads.forward, ht, h1, h2, hz2]

/-- C7: in training mode with both mask collaborators configured, when the
positive prefix is empty (the regression-target count of sample selection
is zero) forward reports a mask loss of exactly zero (the device-tagged
scalar torch.tensor(0)), returns the empty result dict, and never invokes
the mask pooler or mask predictor: replacing them by any other functions
leaves the output unchanged. -/
theorem forward_train_no_pos_short_circuit
    (h : RoIHeads) (E : Externals) (feature : Device × Feat)
    (proposal : List Box) (image_shape : ℚ × ℚ) (target : Target)
    (mrp : Feat → List Box → ℚ × ℚ → Feat) (mp : Feat → List (List Mask2))
    (ht : h.train_mode = true) (h1 : h.mask_roi_pool = some mrp)
    (h2 : h.mask_predictor = some mp)
    (hz : (h.select_training_samples proposal
      target).regression_target.length = 0) :
    (h.forward E feature proposal image_shape target).1 =
      ⟨none, none, none, none⟩ ∧
    (h.forward E feature proposal image_shape target).2.roi_mask_loss =
      some (Device.cpu, 0) ∧
    ∀ (mrp2 : Feat → List Box → ℚ × ℚ → Feat)
      (mp2 : Feat → List (List Mask2)),
      RoIHeads.forward
        { h with mask_roi_pool := some mrp2, mask_predictor := some mp2 }
        E feature proposal image_shape target =
      h.forward E feature proposal image_shape target := by
  have he := forward_train_no_pos_eq h E feature proposal image_shape target
    mrp mp ht h1 h2 hz
  refine ⟨?_, ?_, ?_⟩
  · rw [he]
  · rw [he]
  · intro mrp2 mp2
    have he2 := forward_train_no_pos_eq
      { h with mask_roi_pool := some mrp2, mask_predictor := some mp2 }
      E feature proposal image_shape target mrp2 mp2 ht rfl rfl hz
    rw [he, he2]
    exact rfl

/-- C8: in inference mode with both mask collaborators configured, when
detect produces zero final detections, forward returns a masks entry that
is the empty mask collection of fixed spatial size (0, 28, 28), empty
losses, and never invokes the mask pooler or mask predictor: replacing
them by any other functions leaves the output unchanged. -/
theorem forward_infer_no_detection_short_circuit
    (h : RoIHeads) (E : Externals) (feature : Device × Feat)
    (proposal : List Box) (image_shape : ℚ × ℚ) (target : Target)
    (mrp : Feat → List Box → ℚ × ℚ → Feat) (mp : Feat → List (List Mask2))
    (ht : h.train_mode = false) (h1 : h.mask_roi_pool = some mrp)
    (h2 : h.mask_predictor = some mp)
    (hz : (h.detect E
      (feature.1,
        (h.box_predictor (h.box_roi_pool feature.2 proposal image_shape)).1)
      (h.box_predictor (h.box_roi_pool feature.2 proposal image_shape)).2
      proposal image_shape).boxes.2.length = 0) :
    (h.forward E feature proposal image_shape target).1.masks =
      some (Device.cpu, emptyMaskTensor) ∧
    emptyMaskTensor.shape = (0, 28, 28) ∧ emptyMaskTensor.data = [] ∧
    (h.forward E feature proposal image_shape target).2 =
      ⟨none, none, none⟩ ∧
    ∀ (mrp2 : Feat → List Box → ℚ × ℚ → Feat)
      (mp2 : Feat → List (List Mask2)),
      RoIHeads.forward
        { h with mask_roi_pool := some mrp2, mask_predictor := some mp2 }
        E feature proposal image_shape target =
      h.forward E feature proposal image_shape target := by
  have he := forward_infer_no_det_eq h E feature proposal image_shape target
    mrp mp ht h1 h2 hz
  refine ⟨?_, rfl, rfl, ?_, ?_⟩
  · rw [he]
  · rw [he]
  · intro mrp2 mp2
    have he2 := forward_infer_no_det_eq
      { h with mask_roi_pool := some mrp2, mask_predictor := some mp2 }
      E feature proposal image_shape target mrp2 mp2 ht rfl rfl hz
    rw [he, he2]
    exact rfl

/-- C9: in inference mode the output of forward does not depend on the
target argument — two invocations differing only in target return the
same (result, losses). -/
theorem forward_infer_target_independent
    (h : RoIHeads) (E : Externals) (feature : Device × Feat)
    (proposal : List Box) (image_shape : ℚ × ℚ) (t1 t2 : Target)
    (hm : h.train_mode = false) :
    h.forward E feature proposal image_shape t1 =
      h.forward E feature proposal image_shape t2 := by
  unfold RoIHeads.forward
  rw [hm]
  exact rfl

/-- C10: every instance built by the constructor has mask_roi_pool and
mask_predictor unset (None) — no constructor parameter configures them —
and forward on such an instance never executes the mask branch: the
result has no masks entry and the losses have no mask loss, in either
mode. -/
theorem mkRoIHeads_no_mask_branch
    (brp : Feat → List Box → ℚ × ℚ → Feat)
    (bp : Feat → List (List ℚ) × List (List ℚ))
    (fg bg : ℚ) (ns : Nat) (pf : ℚ) (rwt : ℚ × ℚ × ℚ × ℚ)
    (st nt : ℚ) (nd : Nat) (tm : Bool) :
    (mkRoIHeads brp bp fg bg ns pf rwt st nt nd tm).mask_roi_pool = none ∧
    (mkRoIHeads brp bp fg bg ns pf rwt st nt nd tm).mask_predictor = none ∧
    ∀ (E : Externals) (feature : Device × Feat) (proposal : List Box)
      (image_shape : ℚ × ℚ) (target : Target),
      ((mkRoIHeads brp bp fg bg ns pf rwt st nt nd tm).forward E feature
        proposal image_shape target).1.masks = none ∧
      ((mkRoIHeads brp bp fg bg ns pf rwt st nt nd tm).forward E feature
        proposal image_shape target).2.roi_mask_loss = none := by
  refine ⟨rfl, rfl, fun E feature proposal image_shape target => ?_⟩
  cases tm <;> simp [RoIHeads.forward, mkRoIHeads]

/-- C4 as claimed is false: two closed invocations with inputs on device
cuda 0 whose short-circuit outputs are created on the default cpu device —
the zero mask loss of the training mask branch (torch.tensor(0), line
112) and the empty mask set of the inference mask branch
(torch.empty((0, 28, 28)), line 118) are not on the input device. -/
theorem device_placement_counterexample :
    ((wMaskTrainH.forward trivialExternals (Device.cuda 0, []) [] (10, 10)
        emptyTarget).2.roi_mask_loss = some (Device.cpu, 0) ∧
      Device.cpu ≠ Device.cuda 0) ∧
    ((wMaskInferH.forward trivialExternals (Device.cuda 0, []) [] (10, 10)
        emptyTarget).1.masks = some (Device.cpu, emptyMaskTensor) ∧
      Device.cpu ≠ Device.cuda 0) := by
  refine ⟨⟨?_, by decide⟩, ⟨?_, by decide⟩⟩ <;> rfl

/-- C4 amended: the label, score and box tensors built by detect are
created on the input (class_logit) device, but the zero-valued mask loss
reported when there are no positive training samples and the empty mask
set reported when there are no detections are created on the default cpu
device, whatever the input device. -/
theorem device_placement_amended
    (h : RoIHeads) (E : Externals) (feature : Device × Feat)
    (proposal : List Box) (image_shape : ℚ × ℚ) (target : Target)
    (class_logit : Device × List (List ℚ))
    (box_regression : List (List ℚ)) :
    ((h.detect E class_logit box_regression proposal image_shape).labels.1 =
        class_logit.1 ∧
      (h.detect E class_logit box_regression proposal image_shape).scores.1 =
        class_logit.1 ∧
      (h.detect E class_logit box_regression proposal image_shape).boxes.1 =
        class_logit.1) ∧
    (∀ (mrp : Feat → List Box → ℚ × ℚ → Feat)
      (mp : Feat → List (List Mask2)),
      h.train_mode = true → h.mask_roi_pool = some mrp →
      h.mask_predictor = some mp →
      (h.select_training_samples proposal
        target).regression_target.length = 0 →
      (h.forward E feature proposal image_shape target).2.roi_mask_loss =
        some (Device.cpu, 0)) ∧
    (∀ (mrp : Feat → List Box → ℚ × ℚ → Feat)
      (mp : Feat → List (List Mask2)),
      h.train_mode = false → h.mask_roi_pool = some mrp →
      h.mask_predictor = some mp →
      (h.detect E
        (feature.1,
          (h.box_predictor (h.box_roi_pool feature.2 proposal
            image_shape)).1)
        (h.box_predictor (h.box_roi_pool feature.2 proposal image_shape)).2
        proposal image_shape).boxes.2.length = 0 →
      (h.forward E feature proposal image_shape target).1.masks =
        some (Device.cpu, emptyMaskTensor)) := by
  refine ⟨⟨rfl, rfl, rfl⟩, ?_, ?_⟩
  · intro mrp mp ht h1 h2 hz
    rw [forward_train_no_pos_eq h E feature proposal image_shape target
      mrp mp ht h1 h2 hz]
  · intro mrp mp ht h1 h2 hz
    rw [forward_infer_no_det_eq h E feature proposal image_shape target
      mrp mp ht h1 h2 hz]

theorem select_training_samples_index_consistency_witness :
    0 < ((wTrainH2.samplerOut wProposal wTarget).1 ++
      (wTrainH2.samplerOut wProposal wTarget).2).length ∧
    nth (wTrainH2.select_training_samples wProposal wTarget).proposal 0
        defBox =
      nth (wProposal ++ wTarget.boxes)
        (nth ((wTrainH2.samplerOut wProposal wTarget).1 ++
          (wTrainH2.samplerOut wProposal wTarget).2) 0 0) defBox :=
  ⟨by decide, (select_training_samples_index_consistency wTrainH2 wProposal
    wTarget 0 (by decide)).1⟩

theorem select_training_samples_lengths_witness :
    wTarget.boxes ≠ [] ∧
    (wTrainH2.select_training_samples
        wProposal wTarget).regression_target.length =
      (wTrainH2.samplerOut wProposal wTarget).1.length :=
  ⟨by decide, (select_training_samples_lengths wTrainH2 wProposal wTarget
    (by decide)).1⟩

theorem select_training_samples_pos_and_bg_witness :
    (wTrainH2.samplerOut wProposal wTarget).1.length ≤ 2 ∧
    nth (wTrainH2.select_training_samples wProposal wTarget).label 2 0 = 0 :=
  ⟨by decide, (select_training_samples_pos_and_bg wTrainH2 wProposal
    wTarget).2 2 (by decide)⟩

theorem wInferH2_classFilter_eval :
    wInferH2.classFilter [(0, 0, 5, 5)] (10, 10) [2] [(1, 2, 3, 4)] =
      ([(0, 0, 5, 5)], [2]) := by
  simp only [RoIHeads.classFilter, wInferH2, maskFilter, process_box,
    clipBox, clamp]
  norm_num [List.filterMap_cons, List.filter_cons]

theorem wInferH2_detect_eval :
    (wInferH2.detect rangeNmsExternals (Device.cpu, [[0, 2]])
      [[0, 0, 0, 0, 1, 2, 3, 4]] [(0, 0, 5, 5)] (10, 10)).scores.2 =
      [2] := by
  have h1 : (wInferH2.detect rangeNmsExternals (Device.cpu, [[0, 2]])
      [[0, 0, 0, 0, 1, 2, 3, 4]] [(0, 0, 5, 5)] (10, 10)).scores.2 =
      (wInferH2.detectClass rangeNmsExternals [(0, 0, 5, 5)] (10, 10) 1
        [2] [(1, 2, 3, 4)]).2.1 := by
    simp [RoIHeads.detect, rangeNmsExternals, toDeltas, nth]
  have h2 : (wInferH2.detectClass rangeNmsExternals [(0, 0, 5, 5)] (10, 10) 1
      [2] [(1, 2, 3, 4)]).2.1 = [2] := by
    simp [RoIHeads.detectClass, wInferH2_classFilter_eval, rangeNmsExternals,
      gather, nth, List.range_succ]
    decide
  exact h1.trans h2

theorem detect_scores_ge_thresh_witness :
    wInferH2.score_thresh ≤ 2 :=
  detect_scores_ge_thresh wInferH2 rangeNmsExternals
    (Device.cpu, [[0, 2]]) [[0, 0, 0, 0, 1, 2, 3, 4]] [(0, 0, 5, 5)]
    (10, 10)
    (by
      intro b s i hi
      simp only [rangeNmsExternals] at hi
      exact List.mem_range.mp hi)
    2 (by rw [wInferH2_detect_eval]; exact List.mem_singleton.mpr rfl)

theorem detect_class_nms_invariant_witness :
    List.Pairwise (fun a b => iou a b < wInferH2.nms_thresh)
      (wInferH2.detectClass rangeNmsExternals [(0, 0, 5, 5)] (10, 10) 1
        [2] [(1, 2, 3, 4)]).1 ∧
    (wInferH2.detectClass rangeNmsExternals [(0, 0, 5, 5)] (10, 10) 1
      [2] [(1, 2, 3, 4)]).1.length ≤ wInferH2.num_detections :=
  detect_class_nms_invariant wInferH2 rangeNmsExternals [(0, 0, 5, 5)]
    (10, 10) 1 [2] [(1, 2, 3, 4)]
    (by
      rw [wInferH2_classFilter_eval]
      decide)

theorem forward_train_no_pos_short_circuit_witness :
    (wMaskTrainH.select_training_samples []
        emptyTarget).regression_target.length = 0 ∧
    (wMaskTrainH.forward trivialExternals (Device.cpu, []) [] (10, 10)
      emptyTarget).2.roi_mask_loss = some (Device.cpu, 0) :=
  ⟨by decide, (forward_train_no_pos_short_circuit wMaskTrainH
    trivialExternals (Device.cpu, []) [] (10, 10) emptyTarget
    (fun _ _ _ => []) (fun _ => []) rfl rfl rfl (by decide)).2.1⟩

theorem forward_infer_no_detection_short_circuit_witness :
    (wMaskInferH.forward trivialExternals (Device.cpu, []) [] (10, 10)
      emptyTarget).1.masks = some (Device.cpu, emptyMaskTensor) :=
  (forward_infer_no_detection_short_circuit wMaskInferH trivialExternals
    (Device.cpu, []) [] (10, 10) emptyTarget (fun _ _ _ => []) (fun _ => [])
    rfl rfl rfl (by decide)).1

theorem forward_infer_target_independent_witness :
    wMaskInferH.forward trivialExternals (Device.cpu, []) [] (10, 10)
      ⟨[(0, 0, 1, 1)], [1], []⟩ =
    wMaskInferH.forward trivialExternals (Device.cpu, []) [] (10, 10)
      emptyTarget :=
  forward_infer_target_independent wMaskInferH trivialExternals
    (Device.cpu, []) [] (10, 10) ⟨[(0, 0, 1, 1)], [1], []⟩ emptyTarget rfl

theorem device_placement_amended_witness :
    ((wInferH.detect rangeNmsExternals (Device.cuda 1, [[0, 9/10]])
      [[0, 0, 0, 0, 0, 0, 1, 1]] [(0, 0, 5, 5)] (10, 10)).labels.1 =
      Device.cuda 1 ∧ Device.cpu ≠ Device.cuda 1) ∧
    (wMaskTrainH.forward trivialExternals (Device.cuda 2, []) [] (10, 10)
      emptyTarget).2.roi_mask_loss = some (Device.cpu, 0) :=
  ⟨⟨(device_placement_amended wInferH rangeNmsExternals (Device.cuda 1, [])
      [] (10, 10) emptyTarget (Device.cuda 1, [[0, 9/10]])
      [[0, 0, 0, 0, 0, 0, 1, 1]]).1.1, by decide⟩,
   (device_placement_amended wMaskTrainH trivialExternals (Device.cuda 2, [])
      [] (10, 10) emptyTarget (Device.cuda 2, []) []).2.1
      (fun _ _ _ => []) (fun _ => []) rfl rfl rfl (by decide)⟩

end MaskRCNN
